import Mathlib

/-!
Verification of the stream-identity resolution and remapping subsystem of
nlxdf-tools (src/nlxdftools/nlxdf.py, class NlXdf).

The Python code is shallowly embedded: metadata rows become a structure,
pandas tables become lists of rows, Python dicts become association lists,
the collections.Counter becomes an explicit function from strings to counts
threaded through the row-processing fold, and fallible Python operations
(dict indexing raising KeyError, positional indexing raising IndexError)
return Except values.
-/

/-- Errors a Python expression in the embedded fragment can raise. -/
inductive PyError where
  | keyError (key : String)
  | indexError (streamId : Nat)
  | valueError
deriving DecidableEq

/-- Decidable equality on Except, for evaluating embedded computations on
concrete inputs. -/
def except_decEq {ε α : Type} [DecidableEq ε] [DecidableEq α] :
    (a b : Except ε α) → Decidable (a = b)
  | .error e, .error f =>
    if h : e = f then .isTrue (by rw [h]) else .isFalse (by intro hc; cases hc; exact h rfl)
  | .error _, .ok _ => .isFalse (by intro hc; cases hc)
  | .ok _, .error _ => .isFalse (by intro hc; cases hc)
  | .ok a, .ok b =>
    if h : a = b then .isTrue (by rw [h]) else .isFalse (by intro hc; cases hc; exact h rfl)

instance {ε α : Type} [DecidableEq ε] [DecidableEq α] : DecidableEq (Except ε α) :=
  except_decEq

/-- Association-list model of a Python dict lookup used read-only
(first matching key wins; Python dicts have unique keys). -/
def py_lookup {α β : Type} [DecidableEq α] (tbl : List (α × β)) (k : α) : Option β :=
  (tbl.find? (fun p => decide (p.1 = k))).map (fun p => p.2)

/-- Exact-match value substitution: the behaviour of pandas
DataFrame.replace with a per-column mapping on one cell, and also of a
character-translation table.  Unmatched values pass through unchanged. -/
def substitute {α : Type} [DecidableEq α] (tbl : List (α × α)) (v : α) : α :=
  match py_lookup tbl v with
  | some w => w
  | none => v

/-- ASCII uppercase-to-lowercase pairs, modelling Python str.lower on the
ASCII metadata values this code handles. -/
def ascii_lower_pairs : List (Char × Char) :=
  [('A', 'a'), ('B', 'b'), ('C', 'c'), ('D', 'd'), ('E', 'e'), ('F', 'f'),
   ('G', 'g'), ('H', 'h'), ('I', 'i'), ('J', 'j'), ('K', 'k'), ('L', 'l'),
   ('M', 'm'), ('N', 'n'), ('O', 'o'), ('P', 'p'), ('Q', 'q'), ('R', 'r'),
   ('S', 's'), ('T', 't'), ('U', 'u'), ('V', 'v'), ('W', 'w'), ('X', 'x'),
   ('Y', 'y'), ('Z', 'z')]

/-- Lowercase one character (Python str.lower, ASCII fragment). -/
def char_lower (c : Char) : Char := substitute ascii_lower_pairs c

/-- Python str.lower over a whole string. -/
def str_lower (s : String) : String := ⟨s.data.map char_lower⟩

/-- Python str.startswith. -/
def py_startswith (s pre : String) : Bool := pre.data.isPrefixOf s.data

/-- Decimal digit character. -/
def digit_char (d : Nat) : Char :=
  if d = 0 then '0' else if d = 1 then '1' else if d = 2 then '2'
  else if d = 3 then '3' else if d = 4 then '4' else if d = 5 then '5'
  else if d = 6 then '6' else if d = 7 then '7' else if d = 8 then '8'
  else '9'

/-- Fuel-driven big-endian decimal digit accumulator (structurally
recursive so that concrete evaluation reduces in the kernel). -/
def nat_to_str_aux : Nat → Nat → List Char → List Char
  | 0, _, acc => acc
  | fuel + 1, n, acc =>
    if n = 0 then acc
    else nat_to_str_aux fuel (n / 10) (digit_char (n % 10) :: acc)

/-- Python str(n) for a natural number (stream ids are non-negative). -/
def nat_to_str (n : Nat) : String :=
  if n = 0 then "0" else ⟨nat_to_str_aux n n []⟩

/-- One row of the stream metadata table handed to the classifier:
the fields of the per-stream descriptor read by make_nl_id.  raw_id is
the container-assigned stream id (the row label, row.name in pandas). -/
structure StreamRow where
  raw_id : Nat
  type : String
  name : String
  hostname : String
  source_id : String
deriving DecidableEq

/-- NlXdf.hostname_device_mapper: hostname to device canonical name. -/
def hostname_device_mapper : List (String × String) :=
  [("DESKTOP-3R7C1PH", "eeg-a"),
   ("DESKTOP-2TI6RBU", "eeg-b"),
   ("DESKTOP-MN7K6RM", "eeg-c"),
   ("DESKTOP-URRV98M", "eeg-d"),
   ("DESKTOP-DATOEVU", "eeg-e"),
   ("TABLET-9I44R1AR", "eeg-f"),
   ("DESKTOP-SLAKFQE", "eeg-g"),
   ("DESKTOP-6FJTJJN", "eeg-h"),
   ("DESKTOP-HDOESKS", "eeg-i"),
   ("DESKTOP-LIA3G09", "eeg-j"),
   ("DESKTOP-V6779I4", "eeg-k"),
   ("DESKTOP-PLV2A7L", "eeg-l"),
   ("DESKTOP-SSSOE1L", "eeg-m"),
   ("DESKTOP-RM16J67", "eeg-n"),
   ("DESKTOP-N2RA68S", "eeg-o"),
   ("DESKTOP-S597Q21", "eeg-p"),
   ("TABLET-06K1PLD4", "eeg-q"),
   ("DESKTOP-MK0GQFM", "eeg-r"),
   ("DESKTOP-7GV3RJU", "eeg-s"),
   ("DESKTOP-S5A1PPK", "eeg-t"),
   ("TABLET-3BS4NTP2", "eeg-u"),
   ("DESKTOP-QG4CNEV", "eeg-v"),
   ("DESKTOP-OAF4OCM", "eeg-w"),
   ("TABLET-47TCFCEB", "eeg-cs-v"),
   ("CGS-PCD-26098", "tabarnak"),
   ("CGS-PCL-38928", "laura"),
   ("cgs-macl-39034.campus.goldsmiths.ac.uk", "mirko"),
   ("kassia", "jamief")]

/-- NlXdf.metadata_mapper, column type: exact-value rewrites applied by
df.replace during metadata parsing. -/
def metadata_mapper_type : List (String × String) := [("EEG", "eeg")]

/-- The base-id computation of make_nl_id (nlxdf.py lines 201-236): the
if/elif rule chain before collision suffixing.  An eeg-typed row whose
hostname is absent from hostname_device_mapper raises KeyError, since the
source indexes the dict directly. -/
def make_base_id (row : StreamRow) : Except PyError String :=
  if str_lower row.type = "eeg" then
    match py_lookup hostname_device_mapper row.hostname with
    | some dev => .ok dev
    | none => .error (.keyError row.hostname)
  else .ok (
    if row.name = "TimestampStream" then "ts-marker"
    else if row.name = "CameraRecordingTime" then "ts-video"
    else if row.type = "marker" ∧ row.name = "audio" then "ts-audio"
    else if py_startswith (str_lower row.name) "pupil" then
      (if str_lower row.type = "event" then "pl-" ++ row.source_id ++ "-event"
       else if str_lower row.type = "gaze" then "pl-" ++ row.source_id ++ "-gaze"
       else nat_to_str row.raw_id)
    else if row.type = "data" ∧ py_startswith row.name "Test" then
      (if row.hostname = "neurolive" ∨ row.hostname = "bobby" then "test-ref"
       else match py_lookup hostname_device_mapper row.hostname with
         | some dev => "test-" ++ dev
         | none => "test")
    else if row.type = "control" then "test-ctrl"
    else if str_lower row.type = "markers" then nat_to_str row.raw_id ++ "-markers"
    else if py_startswith row.name "_relay_" then nat_to_str row.raw_id ++ "-relay"
    else nat_to_str row.raw_id)

/-- Counter.update([b]) on the collision counter. -/
def bump (cnt : String → Nat) (b : String) : String → Nat :=
  fun s => if s = b then cnt b + 1 else cnt s

/-- make_nl_id (nlxdf.py lines 201-240): base id computation followed by
collision suffixing against the unique_id_counter. -/
def make_nl_id (cnt : String → Nat) (row : StreamRow) :
    Except PyError (String × (String → Nat)) :=
  match make_base_id row with
  | .error e => .error e
  | .ok b =>
    .ok (if bump cnt b b > 1 then b ++ "-" ++ nat_to_str (bump cnt b b) else b,
         bump cnt b)

/-- The df.apply pass of _create_nl_ids: process rows in table order,
threading the collision counter; the first raised error aborts the pass. -/
def create_nl_ids_aux (cnt : String → Nat) :
    List StreamRow → Except PyError (List String)
  | [] => .ok []
  | row :: rest =>
    match make_nl_id cnt row with
    | .error e => .error e
    | .ok (nl_id, cnt2) =>
      match create_nl_ids_aux cnt2 rest with
      | .error e => .error e
      | .ok tl => .ok (nl_id :: tl)

/-- _create_nl_ids (nlxdf.py lines 197-248): a fresh Counter() is
allocated for every call, then the rows are classified in order. -/
def create_nl_ids (rows : List StreamRow) : Except PyError (List String) :=
  create_nl_ids_aux (fun _ => 0) rows

/-- Metadata normalization performed by _parse_metadata on one row
(nlxdf.py lines 166-169): lowercase the type field, then apply the
metadata_mapper exact-value rewrites (which only touch the type column).
Other fields pass through unchanged. -/
def normalize_metadata_row (r : StreamRow) : StreamRow :=
  ⟨r.raw_id, substitute metadata_mapper_type (str_lower r.type),
   r.name, r.hostname, r.source_id⟩

/-- One row of a per-stream channel-metadata table: the columns touched by
channel_metadata_mapper (label, type) plus the untouched unit column. -/
structure ChannelRow where
  label : String
  unit : String
  type : String
deriving DecidableEq

/-- NlXdf.channel_metadata_mapper, column label. -/
def channel_metadata_mapper_label : List (String × String) :=
  [("0", "Fp1"), ("1", "Fpz"), ("2", "Fp2"), ("3", "F7"), ("4", "F3"),
   ("5", "Fz"), ("6", "F4"), ("7", "F8"), ("8", "FC5"), ("9", "FC1"),
   ("10", "FC2"), ("11", "FC6"), ("12", "M1"), ("13", "T7"), ("14", "C3"),
   ("15", "Cz"), ("16", "C4"), ("17", "T8"), ("18", "M2"), ("19", "CP5"),
   ("20", "CP1"), ("21", "CP2"), ("22", "CP6"), ("23", "P7"), ("24", "P3"),
   ("25", "Pz"), ("26", "P4"), ("27", "P8"), ("28", "POz"), ("29", "O1"),
   ("30", "Oz"), ("31", "O2"), ("32", "Resp"), ("67", "CPz"),
   ("33", "trigger"), ("34", "counter")]

/-- NlXdf.channel_metadata_mapper, column type. -/
def channel_metadata_mapper_type : List (String × String) :=
  [("ref", "eeg"), ("aux", "misc"), ("bip", "misc"), ("trigger", "misc"),
   ("counter", "misc"), ("trg", "stim")]

/-- Channel-metadata normalization performed by _parse_channel_metadata
on one row (nlxdf.py lines 193-194): df.replace with
channel_metadata_mapper, i.e. exact-value rewrites on the label and type
columns; the unit column passes through. -/
def normalize_channel_row (c : ChannelRow) : ChannelRow :=
  ⟨substitute channel_metadata_mapper_label c.label, c.unit,
   substitute channel_metadata_mapper_type c.type⟩

/-- The nl_id assignment computed inside _parse_metadata (nlxdf.py lines
165-171): the raw table is normalized (type lowercased, metadata_mapper
applied) before _create_nl_ids runs. -/
def parse_metadata_nl_ids (rows : List StreamRow) : Except PyError (List String) :=
  create_nl_ids (rows.map normalize_metadata_row)

/-- The nl_id assignment computed inside resolve_streams (nlxdf.py lines
113-114): _create_nl_ids runs directly on the table returned by the
external resolver, without any normalization step. -/
def resolve_streams_nl_ids (rows : List StreamRow) : Except PyError (List String) :=
  create_nl_ids rows

/-- Lexicographic comparison of character lists by code point: the
ordering Python uses to compare strings. -/
def chars_le : List Char → List Char → Bool
  | [], _ => true
  | _ :: _, [] => false
  | a :: as, b :: bs =>
    if a.toNat < b.toNat then true
    else if a.toNat = b.toNat then chars_le as bs
    else false

/-- Python string less-or-equal (lexicographic by code point). -/
def str_le (a b : String) : Prop := chars_le a.data b.data = true

instance : DecidableRel str_le :=
  fun a b => inferInstanceAs (Decidable (chars_le a.data b.data = true))

theorem chars_le_total : ∀ a b : List Char,
    chars_le a b = true ∨ chars_le b a = true := by
  intro a
  induction a with
  | nil => intro b; left; rfl
  | cons x xs ih =>
    intro b
    cases b with
    | nil => right; rfl
    | cons y ys =>
      simp only [chars_le]
      rcases Nat.lt_trichotomy x.toNat y.toNat with hxy | hxy | hxy
      · left; simp [hxy]
      · rcases ih ys with h | h
        · left; simp [hxy, h]
        · right; simp [hxy.symm, h]
      · right; simp [hxy]

theorem chars_le_trans : ∀ a b c : List Char,
    chars_le a b = true → chars_le b c = true → chars_le a c = true := by
  intro a
  induction a with
  | nil => intro b c _ _; rfl
  | cons x xs ih =>
    intro b c h1 h2
    cases b with
    | nil => simp [chars_le] at h1
    | cons y ys =>
      cases c with
      | nil => simp [chars_le] at h2
      | cons z zs =>
        simp only [chars_le] at h1 h2 ⊢
        by_cases h1a : x.toNat < y.toNat
        · by_cases h2a : y.toNat < z.toNat
          · simp [show x.toNat < z.toNat by omega]
          · by_cases h2b : y.toNat = z.toNat
            · simp [show x.toNat < z.toNat by omega]
            · simp [h2a, h2b] at h2
        · by_cases h1b : x.toNat = y.toNat
          · rw [if_neg h1a, if_pos h1b] at h1
            by_cases h2a : y.toNat < z.toNat
            · simp [show x.toNat < z.toNat by omega]
            · by_cases h2b : y.toNat = z.toNat
              · rw [if_neg h2a, if_pos h2b] at h2
                have hxz : ¬ x.toNat < z.toNat := by omega
                have hxz2 : x.toNat = z.toNat := by omega
                rw [if_neg hxz, if_pos hxz2]
                exact ih ys zs h1 h2
              · simp [h2a, h2b] at h2
          · simp [h1a, h1b] at h1

instance : IsTotal String str_le :=
  ⟨fun a b => chars_le_total a.data b.data⟩

instance : IsTrans String str_le :=
  ⟨fun _ _ _ h1 h2 => chars_le_trans _ _ _ h1 h2⟩

/-- Key-ordering relation for association lists sorted by their string
key (Python sorted(...) on dict items with unique keys, and pandas
sort_index). -/
def key_le {α : Type} (a b : String × α) : Prop := str_le a.1 b.1

instance {α : Type} : DecidableRel (@key_le α) :=
  fun a b => inferInstanceAs (Decidable (str_le a.1 b.1))

instance {α : Type} : IsTotal (String × α) (@key_le α) :=
  ⟨fun a b => chars_le_total a.1.data b.1.data⟩

instance {α : Type} : IsTrans (String × α) (@key_le α) :=
  ⟨fun _ _ _ h1 h2 => chars_le_trans _ _ _ h1 h2⟩

/-- The resolved metadata table built by _parse_metadata with
nl_id_as_index=True (nlxdf.py lines 170-176): classify the normalized
rows, set nl_id as the index with verify_integrity=True (ValueError on a
duplicate index), and sort ascending by the new index.  Each table row is
(nl_id, stream_id). -/
def parse_metadata_table (rows : List StreamRow) :
    Except PyError (List (String × Nat)) :=
  match create_nl_ids (rows.map normalize_metadata_row) with
  | .error e => .error e
  | .ok ids =>
    if ids.Nodup then
      .ok (List.insertionSort key_le (ids.zip (rows.map (fun r => r.raw_id))))
    else .error .valueError

/-- _stream_id_to_nl_id (nlxdf.py lines 266-270): select the metadata
rows whose stream_id column equals the given raw id and take the first
index label; positional indexing raises IndexError when no row matches. -/
def stream_id_to_nl_id (meta : List (String × Nat)) (sid : Nat) :
    Except PyError String :=
  match meta.find? (fun p => decide (p.2 = sid)) with
  | some p => .ok p.1
  | none => .error (.indexError sid)

/-- The list-comprehension pass of _map_stream_ids over a sequence of raw
ids: the first failing lookup aborts with its error. -/
def map_ids_list_core (meta : List (String × Nat)) :
    List Nat → Except PyError (List String)
  | [] => .ok []
  | sid :: rest =>
    match stream_id_to_nl_id meta sid with
    | .error e => .error e
    | .ok s =>
      match map_ids_list_core meta rest with
      | .error e => .error e
      | .ok tl => .ok (s :: tl)

/-- The dict/DataFrame key-renaming pass of _map_stream_ids: rename every
raw-id key via _stream_id_to_nl_id, keeping payloads; the first failing
lookup aborts with its error. -/
def rename_keys_core {α : Type} (meta : List (String × Nat)) :
    List (Nat × α) → Except PyError (List (String × α))
  | [] => .ok []
  | (sid, v) :: rest =>
    match stream_id_to_nl_id meta sid with
    | .error e => .error e
    | .ok s =>
      match rename_keys_core meta rest with
      | .error e => .error e
      | .ok tl => .ok ((s, v) :: tl)

/-- Insertion of one key-value pair into a Python dict under construction:
an existing key is overwritten in place, a new key is appended. -/
def py_dict_insert {α : Type} (l : List (String × α)) (kv : String × α) :
    List (String × α) :=
  if l.any (fun p => decide (p.1 = kv.1)) then
    l.map (fun p => if p.1 = kv.1 then kv else p)
  else l ++ [kv]

/-- Python dict built from a list of key-value pairs (the semantics of a
dict comprehension: later duplicate keys overwrite earlier entries). -/
def py_dict_of_list {α : Type} (l : List (String × α)) : List (String × α) :=
  l.foldl py_dict_insert []

/-- _map_stream_ids on a list collection (nlxdf.py lines 253-256):
replace each raw id via the lookup, then data.sort() ascending. -/
def map_stream_ids_list (meta : List (String × Nat)) (l : List Nat) :
    Except PyError (List String) :=
  match map_ids_list_core meta l with
  | .error e => .error e
  | .ok out => .ok (List.insertionSort str_le out)

/-- _map_stream_ids on a dict collection (nlxdf.py lines 257-260):
rebuild the dict with renamed keys (payloads untouched), then
dict(sorted(data.items())) ascending by key. -/
def map_stream_ids_dict {α : Type} (meta : List (String × Nat))
    (l : List (Nat × α)) : Except PyError (List (String × α)) :=
  match rename_keys_core meta l with
  | .error e => .error e
  | .ok out => .ok (List.insertionSort key_le (py_dict_of_list out))

/-- _map_stream_ids on an indexed table (nlxdf.py lines 261-263):
rename the index via the lookup (duplicate labels are kept, nothing is
merged), then sort rows ascending by the new index. -/
def map_stream_ids_df {α : Type} (meta : List (String × Nat))
    (l : List (Nat × α)) : Except PyError (List (String × α)) :=
  match rename_keys_core meta l with
  | .error e => .error e
  | .ok out => .ok (List.insertionSort key_le out)

/-- The data produced by one successful external container-load call.
Modelled from the spec: the external loader (pyxdftools Xdf._load) is out
of scope; it yields per-stream descriptor rows and the six stream-indexed
collections that load then remaps (the loaded-stream-id list and the
channel-metadata, footer, clock-offset, time-series and timestamp maps),
with opaque payloads. -/
structure LoadedData (α : Type) where
  metadata_rows : List StreamRow
  loaded_stream_ids : List Nat
  channel_metadata : List (Nat × α)
  footer : List (Nat × α)
  clock_offsets : List (Nat × α)
  time_series : List (Nat × α)
  time_stamps : List (Nat × α)

/-- Outcome of the delegated external load call.  Modelled from the spec:
NoLoadableStreamsError (no streams matched the selection) and
XdfAlreadyLoadedError (session already loaded) are the two recoverable
collaborator failures; ok carries the decoded session data. -/
inductive LoadOutcome (α : Type) where
  | noLoadableStreams
  | alreadyLoaded
  | ok (d : LoadedData α)

/-- The session handle state: the resolved metadata table plus the six
collections after remapping to nl_id keys. -/
structure SessionState (α : Type) where
  metadata : List (String × Nat)
  loaded_stream_ids : List String
  channel_metadata : List (String × α)
  footer : List (String × α)
  clock_offsets : List (String × α)
  time_series : List (String × α)
  time_stamps : List (String × α)

/-- load (nlxdf.py lines 129-161): delegate to the external loader; the
two recoverable failures are caught (the exception is printed) and the
handle's prior state is returned unchanged; on success the metadata is
parsed (inside the same try block, so classification errors propagate)
and every stream-indexed collection is remapped, any remap error
propagating unmodified to the caller. -/
def load {α : Type} (st : SessionState α) (outcome : LoadOutcome α) :
    Except PyError (SessionState α) :=
  match outcome with
  | .noLoadableStreams => .ok st
  | .alreadyLoaded => .ok st
  | .ok d =>
    match parse_metadata_table d.metadata_rows with
    | .error e => .error e
    | .ok meta =>
      match map_stream_ids_list meta d.loaded_stream_ids with
      | .error e => .error e
      | .ok ids =>
        match map_stream_ids_dict meta d.channel_metadata with
        | .error e => .error e
        | .ok chan =>
          match map_stream_ids_dict meta d.footer with
          | .error e => .error e
          | .ok foot =>
            match map_stream_ids_dict meta d.clock_offsets with
            | .error e => .error e
            | .ok clock =>
              match map_stream_ids_dict meta d.time_series with
              | .error e => .error e
              | .ok ts =>
                match map_stream_ids_dict meta d.time_stamps with
                | .error e => .error e
                | .ok tst => .ok ⟨meta, ids, chan, foot, clock, ts, tst⟩

/-- A sequence of classification calls in one process: each call invokes
_create_nl_ids independently (the Counter is a local of each call). -/
def run_resolutions (tables : List (List StreamRow)) :
    List (Except PyError (List String)) :=
  tables.map create_nl_ids

example : create_nl_ids
    [⟨5, "gaze", "pupil_cam", "h1", "123"⟩, ⟨9, "gaze", "Pupil x", "h2", "123"⟩]
    = .ok ["pl-123-gaze", "pl-123-gaze-2"] := by decide

/-! ### Decimal rendering: basic theory -/

theorem nat_to_str_aux_append (fuel : Nat) :
    ∀ n acc, nat_to_str_aux fuel n acc = nat_to_str_aux fuel n [] ++ acc := by
  induction fuel with
  | zero => intro n acc; rfl
  | succ fuel ih =>
    intro n acc
    by_cases h : n = 0
    · simp [nat_to_str_aux, h]
    · rw [nat_to_str_aux, nat_to_str_aux, if_neg h, if_neg h,
        ih (n / 10) (digit_char (n % 10) :: acc), ih (n / 10) [digit_char (n % 10)]]
      simp

/-- Numeric value of a big-endian digit-character list. -/
def digits_val (l : List Char) : Nat :=
  l.foldl (fun a c => 10 * a + (c.toNat - 48)) 0

theorem digit_char_val (d : Nat) (h : d < 10) : (digit_char d).toNat - 48 = d := by
  interval_cases d <;> rfl

theorem digit_char_isDigit (d : Nat) : (digit_char d).isDigit = true := by
  unfold digit_char
  split_ifs <;> rfl

theorem digits_val_append_singleton (l : List Char) (c : Char) :
    digits_val (l ++ [c]) = 10 * digits_val l + (c.toNat - 48) := by
  unfold digits_val
  rw [List.foldl_append]
  rfl

theorem nat_to_str_aux_val (fuel : Nat) :
    ∀ n, n ≤ fuel → digits_val (nat_to_str_aux fuel n []) = n := by
  induction fuel with
  | zero => intro n hn; interval_cases n; rfl
  | succ fuel ih =>
    intro n hn
    by_cases h : n = 0
    · simp [nat_to_str_aux, h]; rfl
    · rw [nat_to_str_aux, if_neg h,
        nat_to_str_aux_append fuel (n / 10) [digit_char (n % 10)],
        digits_val_append_singleton, digit_char_val (n % 10) (Nat.mod_lt n (by omega)),
        ih (n / 10) (by omega)]
      omega

theorem digits_val_nat_to_str (n : Nat) : digits_val (nat_to_str n).data = n := by
  unfold nat_to_str
  by_cases h : n = 0
  · rw [if_pos h, h]; rfl
  · rw [if_neg h]
    exact nat_to_str_aux_val n n le_rfl

theorem nat_to_str_inj {m n : Nat} (h : nat_to_str m = nat_to_str n) : m = n := by
  have := digits_val_nat_to_str m
  rw [h, digits_val_nat_to_str] at this
  omega

theorem nat_to_str_aux_digits (fuel : Nat) :
    ∀ n c, c ∈ nat_to_str_aux fuel n [] → c.isDigit = true := by
  induction fuel with
  | zero => intro n c hc; simp [nat_to_str_aux] at hc
  | succ fuel ih =>
    intro n c hc
    by_cases h : n = 0
    · simp [nat_to_str_aux, h] at hc
    · rw [nat_to_str_aux, if_neg h,
        nat_to_str_aux_append fuel (n / 10) [digit_char (n % 10)]] at hc
      rcases List.mem_append.mp hc with h1 | h1
      · exact ih (n / 10) c h1
      · rcases List.mem_singleton.mp h1 with rfl
        exact digit_char_isDigit (n % 10)

theorem nat_to_str_digits {n : Nat} {c : Char} (hc : c ∈ (nat_to_str n).data) :
    c.isDigit = true := by
  unfold nat_to_str at hc
  by_cases h : n = 0
  · rw [if_pos h] at hc
    rcases List.mem_singleton.mp hc with rfl
    rfl
  · rw [if_neg h] at hc
    exact nat_to_str_aux_digits n n c hc

theorem nat_to_str_no_dash {n : Nat} : '-' ∉ (nat_to_str n).data := by
  intro hmem
  have := nat_to_str_digits hmem
  simp [Char.isDigit] at this

theorem nat_to_str_ne_nil (n : Nat) : (nat_to_str n).data ≠ [] := by
  intro hnil
  have := digits_val_nat_to_str n
  rw [hnil] at this
  unfold nat_to_str at hnil
  by_cases h : n = 0
  · rw [if_pos h] at hnil; simp at hnil
  · exact h (by simpa [digits_val] using this.symm)

/-! ### Shape of the produced base ids -/

theorem str_ext {s t : String} (h : s.data = t.data) : s = t := by
  cases s; cases t
  exact congrArg String.mk h

/-- True when the string's final character is not a decimal digit. -/
def last_non_digit (s : String) : Bool :=
  match s.data.getLast? with
  | some c => !c.isDigit
  | none => false

/-- A base id is good when it cannot be confused with a
collision-suffixed id: its last character is not a digit, or it contains
no dash at all.  Every base id the rule chain can produce is good. -/
def good_base (s : String) : Bool :=
  last_non_digit s || !(s.data.contains '-')

theorem good_base_of_last {s : String} {c : Char}
    (hlast : s.data.getLast? = some c) (hc : c.isDigit = false) :
    good_base s = true := by
  unfold good_base last_non_digit
  rw [hlast]
  simp [hc]

theorem good_base_of_no_dash {s : String} (h : '-' ∉ s.data) :
    good_base s = true := by
  unfold good_base
  have : s.data.contains '-' = false := by
    simpa [List.contains] using h
  rw [this]
  simp

theorem good_base_nat_to_str (n : Nat) : good_base (nat_to_str n) = true :=
  good_base_of_no_dash nat_to_str_no_dash

/-- The data of a suffixed id b ++ "-" ++ nat_to_str k, flattened. -/
theorem suffixed_data (b : String) (k : Nat) :
    (b ++ "-" ++ nat_to_str k).data = b.data ++ '-' :: (nat_to_str k).data := by
  rw [String.data_append, String.data_append, List.append_assoc]
  rfl

/-- A good base id never equals a dash-suffixed id. -/
theorem good_base_ne_suffixed {b c : String} {k : Nat}
    (hg : good_base b = true) : b ≠ c ++ "-" ++ nat_to_str k := by
  intro heq
  have hdata : b.data = c.data ++ '-' :: (nat_to_str k).data := by
    rw [heq]; exact suffixed_data c k
  unfold good_base last_non_digit at hg
  rcases Bool.or_eq_true_iff.mp hg with h1 | h1
  · have hsome : ((nat_to_str k).data.getLast?).isSome := by
      rw [List.getLast?_isSome]; exact nat_to_str_ne_nil k
    rcases Option.isSome_iff_exists.mp hsome with ⟨e, he⟩
    have hlast : b.data.getLast? = some e := by
      rw [hdata, List.getLast?_append, List.getLast?_cons, he]
      rfl
    rw [hlast] at h1
    have hdig : e.isDigit = true :=
      nat_to_str_digits (List.mem_of_mem_getLast? he)
    simp [hdig] at h1
  · have : b.data.contains '-' = true := by
      rw [hdata]
      simp [List.contains]
    rw [this] at h1
    simp at h1

/-- Splitting an append around a dash marker whose right parts are
dash-free recovers both halves. -/
theorem append_dash_inj {a b x y : List Char}
    (h : a ++ '-' :: x = b ++ '-' :: y) (hx : '-' ∉ x) (hy : '-' ∉ y) :
    a = b ∧ x = y := by
  rcases List.append_eq_append_iff.mp h with ⟨m, hb, he⟩ | ⟨m, ha, he⟩
  · cases m with
    | nil => exact ⟨by simpa using hb.symm, by simpa using he⟩
    | cons c cs =>
      rw [List.cons_append] at he
      injection he with hc hxe
      exact absurd (by rw [hxe]; simp : '-' ∈ x) hx
  · cases m with
    | nil => exact ⟨by simpa using ha, by simpa using he.symm⟩
    | cons c cs =>
      rw [List.cons_append] at he
      injection he with hc hye
      exact absurd (by rw [hye]; simp : '-' ∈ y) hy

/-- Two dash-suffixed ids coincide only when base and count coincide. -/
theorem suffixed_inj {b1 b2 : String} {j k : Nat}
    (h : b1 ++ "-" ++ nat_to_str j = b2 ++ "-" ++ nat_to_str k) :
    b1 = b2 ∧ j = k := by
  have hdata : b1.data ++ '-' :: (nat_to_str j).data
      = b2.data ++ '-' :: (nat_to_str k).data := by
    rw [← suffixed_data, ← suffixed_data, h]
  have := append_dash_inj hdata nat_to_str_no_dash nat_to_str_no_dash
  exact ⟨str_ext this.1, nat_to_str_inj (str_ext this.2)⟩

theorem py_lookup_mem {α β : Type} [DecidableEq α] {tbl : List (α × β)}
    {k : α} {v : β} (h : py_lookup tbl k = some v) : ∃ p ∈ tbl, p.2 = v := by
  unfold py_lookup at h
  rcases Option.map_eq_some'.mp h with ⟨p, hp, hv⟩
  exact ⟨p, List.mem_of_find?_eq_some hp, hv⟩

/-- Every device name in the hostname map ends in a non-digit character. -/
theorem hostname_values_last :
    ∀ p ∈ hostname_device_mapper, last_non_digit p.2 = true := by decide

theorem last_non_digit_spec {s : String} (h : last_non_digit s = true) :
    ∃ c, s.data.getLast? = some c ∧ c.isDigit = false := by
  unfold last_non_digit at h
  rcases he : s.data.getLast? with _ | c
  · rw [he] at h; simp at h
  · rw [he] at h; exact ⟨c, rfl, by simpa using h⟩

theorem good_base_of_lnd {s : String} (h : last_non_digit s = true) :
    good_base s = true := by
  unfold good_base
  rw [h]
  rfl

theorem good_base_append {a b : String} (h : last_non_digit b = true) :
    good_base (a ++ b) = true := by
  rcases last_non_digit_spec h with ⟨c, hc, hdig⟩
  have hlast : (a ++ b).data.getLast? = some c := by
    rw [String.data_append, List.getLast?_append, hc]
    rfl
  exact good_base_of_last hlast hdig

/-- Every base id the rule chain can produce is good: it is never of the
shape some-string ++ dash ++ decimal-numeral. -/
theorem make_base_id_good {row : StreamRow} {b : String}
    (h : make_base_id row = .ok b) : good_base b = true := by
  unfold make_base_id at h
  split at h
  · split at h
    next dev hfind =>
      injection h with hb
      rcases py_lookup_mem hfind with ⟨p, hp, hv⟩
      subst hb
      rw [← hv]
      exact good_base_of_lnd (hostname_values_last p hp)
    next => exact Except.noConfusion h
  · injection h with hb
    subst hb
    split
    · decide
    split
    · decide
    split
    · decide
    split
    · split
      · exact good_base_append (by decide)
      split
      · exact good_base_append (by decide)
      · exact good_base_nat_to_str _
    split
    · split
      · decide
      split
      next dev hfind =>
        rcases py_lookup_mem hfind with ⟨p, hp, hv⟩
        rw [← hv]
        exact good_base_append (hostname_values_last p hp)
      next => decide
    split
    · decide
    split
    · exact good_base_append (by decide)
    split
    · exact good_base_append (by decide)
    · exact good_base_nat_to_str _

/-! ### Uniqueness of the assigned ids -/

theorem bump_self (cnt : String → Nat) (b : String) : bump cnt b b = cnt b + 1 := by
  unfold bump
  rw [if_pos rfl]

theorem bump_le (cnt : String → Nat) (b s : String) : cnt s ≤ bump cnt b s := by
  unfold bump
  by_cases h : s = b
  · rw [if_pos h, h]; omega
  · rw [if_neg h]

/-- Characterization of one make_nl_id step. -/
theorem make_nl_id_ok {cnt : String → Nat} {row : StreamRow} {nl : String}
    {cnt2 : String → Nat} (h : make_nl_id cnt row = .ok (nl, cnt2)) :
    ∃ b, make_base_id row = .ok b ∧ cnt2 = bump cnt b ∧
      ((cnt b = 0 ∧ nl = b) ∨
       (1 ≤ cnt b ∧ nl = b ++ "-" ++ nat_to_str (cnt b + 1))) := by
  unfold make_nl_id at h
  split at h
  · exact Except.noConfusion h
  next b heq =>
    injection h with hpair
    have h1 := congrArg Prod.fst hpair
    have h2 := congrArg Prod.snd hpair
    simp only at h1 h2
    refine ⟨b, heq, h2.symm, ?_⟩
    rw [bump_self] at h1
    by_cases hc : cnt b = 0
    · left
      refine ⟨hc, ?_⟩
      rw [← h1, if_neg (by omega)]
    · right
      refine ⟨by omega, ?_⟩
      rw [← h1, if_pos (by omega)]

/-- Every id in the output of the fold is tagged by a good base id and a
count strictly above the incoming counter value for that base. -/
def id_spec (cnt : String → Nat) (s : String) : Prop :=
  ∃ b k, good_base b = true ∧ cnt b < k ∧
    ((k = 1 ∧ s = b) ∨ (2 ≤ k ∧ s = b ++ "-" ++ nat_to_str k))

theorem id_spec_mono {cnt cnt2 : String → Nat} {s : String}
    (hle : ∀ b, cnt b ≤ cnt2 b) (h : id_spec cnt2 s) : id_spec cnt s := by
  rcases h with ⟨b, k, hg, hk, hc⟩
  exact ⟨b, k, hg, lt_of_le_of_lt (hle b) hk, hc⟩

theorem create_nl_ids_aux_spec {cnt : String → Nat} {rows : List StreamRow}
    {ids : List String} (h : create_nl_ids_aux cnt rows = .ok ids) :
    ∀ s ∈ ids, id_spec cnt s := by
  induction rows generalizing cnt ids with
  | nil =>
    unfold create_nl_ids_aux at h
    injection h with h
    subst h
    intro s hs
    simp at hs
  | cons row rest ih =>
    unfold create_nl_ids_aux at h
    split at h
    · exact Except.noConfusion h
    next nl cnt2 heq =>
      split at h
      · exact Except.noConfusion h
      next tl htl =>
        injection h with h
        subst h
        intro s hs
        rcases make_nl_id_ok heq with ⟨b, hb, hcnt2, hcase⟩
        rcases List.mem_cons.mp hs with hsnl | hstl
        · rcases hcase with ⟨hc0, hnl⟩ | ⟨hc1, hnl⟩
          · exact ⟨b, 1, make_base_id_good hb, by omega,
              Or.inl ⟨rfl, by rw [hsnl, hnl]⟩⟩
          · exact ⟨b, cnt b + 1, make_base_id_good hb, by omega,
              Or.inr ⟨by omega, by rw [hsnl, hnl]⟩⟩
        · refine id_spec_mono ?_ (ih htl s hstl)
          intro b2
          rw [hcnt2]
          exact bump_le cnt b b2

theorem create_nl_ids_aux_nodup {cnt : String → Nat} {rows : List StreamRow}
    {ids : List String} (h : create_nl_ids_aux cnt rows = .ok ids) :
    ids.Nodup := by
  induction rows generalizing cnt ids with
  | nil =>
    unfold create_nl_ids_aux at h
    injection h with h
    subst h
    exact List.nodup_nil
  | cons row rest ih =>
    unfold create_nl_ids_aux at h
    split at h
    · exact Except.noConfusion h
    next nl cnt2 heq =>
      split at h
      · exact Except.noConfusion h
      next tl htl =>
        injection h with h
        subst h
        rw [List.nodup_cons]
        refine ⟨?_, ih htl⟩
        intro hmem
        rcases make_nl_id_ok heq with ⟨b0, hb0, hcnt2, hcase⟩
        have hspec := create_nl_ids_aux_spec htl nl hmem
        rw [hcnt2] at hspec
        rcases hspec with ⟨b, k, hgb, hk, hcase2⟩
        rcases hcase with ⟨hc0, hnl⟩ | ⟨hc1, hnl⟩
        · rcases hcase2 with ⟨hk1, hsb⟩ | ⟨hk2, hsb⟩
          · have hbb : b = b0 := by rw [← hsb, hnl]
            rw [hbb, bump_self] at hk
            omega
          · have : b0 = b ++ "-" ++ nat_to_str k := by rw [← hnl, hsb]
            exact good_base_ne_suffixed (make_base_id_good hb0) this
        · rcases hcase2 with ⟨hk1, hsb⟩ | ⟨hk2, hsb⟩
          · have : b = b0 ++ "-" ++ nat_to_str (cnt b0 + 1) := by
              rw [← hsb, hnl]
            exact good_base_ne_suffixed hgb this
          · have heqs : b0 ++ "-" ++ nat_to_str (cnt b0 + 1)
                = b ++ "-" ++ nat_to_str k := by rw [← hnl, hsb]
            rcases suffixed_inj heqs with ⟨hbb, hkk⟩
            rw [← hbb, bump_self] at hk
            omega

theorem create_nl_ids_aux_length {cnt : String → Nat} {rows : List StreamRow}
    {ids : List String} (h : create_nl_ids_aux cnt rows = .ok ids) :
    ids.length = rows.length := by
  induction rows generalizing cnt ids with
  | nil =>
    unfold create_nl_ids_aux at h
    injection h with h
    subst h
    rfl
  | cons row rest ih =>
    unfold create_nl_ids_aux at h
    split at h
    · exact Except.noConfusion h
    next nl cnt2 heq =>
      split at h
      · exact Except.noConfusion h
      next tl htl =>
        injection h with h
        subst h
        simp [ih htl]

/-- Uniqueness and completeness of the assignment, for any call. -/
theorem create_nl_ids_nodup {rows : List StreamRow} {ids : List String}
    (h : create_nl_ids rows = .ok ids) : ids.length = rows.length ∧ ids.Nodup :=
  ⟨create_nl_ids_aux_length h, create_nl_ids_aux_nodup h⟩

/-! ### Positional characterization: collision suffixing in table order -/

theorem create_nl_ids_aux_get {cnt : String → Nat} {rows : List StreamRow}
    {ids : List String} (h : create_nl_ids_aux cnt rows = .ok ids) :
    ∀ (i : Nat) (hi : i < rows.length) (hi2 : i < ids.length) (b : String),
      make_base_id (rows.get ⟨i, hi⟩) = .ok b →
      ids.get ⟨i, hi2⟩ =
        (if cnt b + (rows.take (i + 1)).countP
              (fun r => decide (make_base_id r = .ok b)) = 1
         then b
         else b ++ "-" ++ nat_to_str (cnt b + (rows.take (i + 1)).countP
              (fun r => decide (make_base_id r = .ok b)))) := by
  induction rows generalizing cnt ids with
  | nil => intro i hi; simp at hi
  | cons row rest ih =>
    unfold create_nl_ids_aux at h
    split at h
    · exact Except.noConfusion h
    next nl cnt2 heq =>
      split at h
      · exact Except.noConfusion h
      next tl htl =>
        injection h with h
        subst h
        intro i hi hi2 b hbase
        rcases make_nl_id_ok heq with ⟨b0, hb0, hcnt2, hcase⟩
        cases i with
        | zero =>
          have hbase0 : make_base_id row = .ok b := hbase
          have hbb : b0 = b := by
            rw [hbase0] at hb0
            injection hb0 with hb0
            exact hb0.symm
          subst hbb
          have hcount : (List.take 1 (row :: rest)).countP
              (fun r => decide (make_base_id r = .ok b0)) = 1 := by
            rw [List.take_succ_cons, List.take_zero, List.countP_cons]
            simp [hbase0]
          have hget : (nl :: tl).get ⟨0, hi2⟩ = nl := rfl
          rw [hget, hcount]
          rcases hcase with ⟨hc0, hnl⟩ | ⟨hc1, hnl⟩
          · rw [hnl, hc0, if_pos (by omega)]
          · rw [hnl, if_neg (by omega)]
        | succ i =>
          have hi1 : i < rest.length := by simp at hi; omega
          have hi21 : i < tl.length := by simp at hi2; omega
          have hbase1 : make_base_id (rest.get ⟨i, hi1⟩) = .ok b := by
            rw [List.get_cons_succ] at hbase
            exact hbase
          have hcnt2b : cnt2 b + (rest.take (i + 1)).countP
                (fun r => decide (make_base_id r = .ok b))
              = cnt b + ((row :: rest).take (i + 1 + 1)).countP
                (fun r => decide (make_base_id r = .ok b)) := by
            rw [List.take_succ_cons, List.countP_cons, hcnt2]
            unfold bump
            by_cases hbb : b = b0
            · subst hbb
              simp [hb0]
              omega
            · rw [if_neg hbb]
              have hd : (decide (make_base_id row = .ok b)) = false := by
                rw [hb0]
                simp only [decide_eq_false_iff_not]
                intro hcon
                injection hcon with hcc
                exact hbb hcc.symm
              rw [hd]
              simp
          rw [List.get_cons_succ, ← hcnt2b]
          exact ih htl i hi1 hi21 b hbase1

/-! ### Mapper lemmas -/

theorem py_lookup_spec {α β : Type} [DecidableEq α] {tbl : List (α × β)}
    {k : α} {v : β} (h : py_lookup tbl k = some v) :
    ∃ p ∈ tbl, p.1 = k ∧ p.2 = v := by
  unfold py_lookup at h
  rcases Option.map_eq_some'.mp h with ⟨p, hp, hv⟩
  have hpk := @List.find?_some (α × β) (fun q => decide (q.1 = k)) p tbl hp
  exact ⟨p, List.mem_of_find?_eq_some hp, of_decide_eq_true hpk, hv⟩

theorem stream_id_to_nl_id_ok {meta : List (String × Nat)} {sid : Nat}
    (h : ∃ q ∈ meta, q.2 = sid) :
    ∃ s, stream_id_to_nl_id meta sid = .ok s := by
  unfold stream_id_to_nl_id
  rcases hf : meta.find? (fun p => decide (p.2 = sid)) with _ | p
  · rcases h with ⟨q, hq, hq2⟩
    rw [List.find?_eq_none] at hf
    exact absurd (by simp [hq2]) (hf q hq)
  · rw [hf]
    exact ⟨p.1, rfl⟩

theorem stream_id_to_nl_id_miss {meta : List (String × Nat)} {sid : Nat}
    (h : ∀ q ∈ meta, q.2 ≠ sid) :
    stream_id_to_nl_id meta sid = .error (.indexError sid) := by
  unfold stream_id_to_nl_id
  have hf : meta.find? (fun p => decide (p.2 = sid)) = none := by
    rw [List.find?_eq_none]
    intro q hq
    simp [h q hq]
  rw [hf]

theorem map_ids_list_core_ok {meta : List (String × Nat)} :
    ∀ {l : List Nat}, (∀ sid ∈ l, ∃ q ∈ meta, q.2 = sid) →
    ∃ out, map_ids_list_core meta l = .ok out ∧ out.length = l.length := by
  intro l
  induction l with
  | nil => intro _; exact ⟨[], rfl, rfl⟩
  | cons sid rest ih =>
    intro h
    rcases stream_id_to_nl_id_ok (h sid (by simp)) with ⟨s, hs⟩
    rcases ih (fun x hx => h x (by simp [hx])) with ⟨out, hout, hlen⟩
    refine ⟨s :: out, ?_, by simp [hlen]⟩
    unfold map_ids_list_core
    rw [hs, hout]

theorem map_ids_list_core_err {meta : List (String × Nat)} {sid : Nat} :
    ∀ {l : List Nat}, sid ∈ l → (∀ q ∈ meta, q.2 ≠ sid) →
    ∃ e, map_ids_list_core meta l = .error e := by
  intro l
  induction l with
  | nil => intro h; simp at h
  | cons a rest ih =>
    intro hmem hmiss
    unfold map_ids_list_core
    rcases ha : stream_id_to_nl_id meta a with e | s
    · exact ⟨e, rfl⟩
    · rcases List.mem_cons.mp hmem with heq | hrest
      · rw [← heq] at ha
        rw [stream_id_to_nl_id_miss hmiss] at ha
        exact Except.noConfusion ha
      · rcases ih hrest hmiss with ⟨e, he⟩
        rw [he]
        exact ⟨e, rfl⟩

theorem rename_keys_core_err {α : Type} {meta : List (String × Nat)} {sid : Nat} :
    ∀ {dl : List (Nat × α)}, sid ∈ dl.map Prod.fst →
    (∀ q ∈ meta, q.2 ≠ sid) → ∃ e, rename_keys_core meta dl = .error e := by
  intro dl
  induction dl with
  | nil => intro h _; simp at h
  | cons p rest ih =>
    obtain ⟨k, v⟩ := p
    intro hmem hmiss
    unfold rename_keys_core
    rcases ha : stream_id_to_nl_id meta k with e | s
    · exact ⟨e, rfl⟩
    · rw [List.map_cons] at hmem
      rcases List.mem_cons.mp hmem with heq | hrest
      · have heq2 : sid = k := heq
        rw [← heq2] at ha
        rw [stream_id_to_nl_id_miss hmiss] at ha
        exact Except.noConfusion ha
      · rcases ih hrest hmiss with ⟨e, he⟩
        rw [he]
        exact ⟨e, rfl⟩

theorem map_stream_ids_list_err {meta : List (String × Nat)} {l : List Nat}
    {sid : Nat} (hmem : sid ∈ l) (hmiss : ∀ q ∈ meta, q.2 ≠ sid) :
    ∃ e, map_stream_ids_list meta l = .error e := by
  rcases map_ids_list_core_err hmem hmiss with ⟨e, he⟩
  refine ⟨e, ?_⟩
  unfold map_stream_ids_list
  rw [he]

theorem map_stream_ids_dict_err {α : Type} {meta : List (String × Nat)}
    {dl : List (Nat × α)} {sid : Nat} (hmem : sid ∈ dl.map Prod.fst)
    (hmiss : ∀ q ∈ meta, q.2 ≠ sid) :
    ∃ e, map_stream_ids_dict meta dl = .error e := by
  rcases rename_keys_core_err hmem hmiss with ⟨e, he⟩
  refine ⟨e, ?_⟩
  unfold map_stream_ids_dict
  rw [he]

theorem map_stream_ids_df_err {α : Type} {meta : List (String × Nat)}
    {dl : List (Nat × α)} {sid : Nat} (hmem : sid ∈ dl.map Prod.fst)
    (hmiss : ∀ q ∈ meta, q.2 ≠ sid) :
    ∃ e, map_stream_ids_df meta dl = .error e := by
  rcases rename_keys_core_err hmem hmiss with ⟨e, he⟩
  refine ⟨e, ?_⟩
  unfold map_stream_ids_df
  rw [he]

theorem rename_keys_core_length_mem {α : Type} {meta : List (String × Nat)} :
    ∀ {dl : List (Nat × α)} {out : List (String × α)},
    rename_keys_core meta dl = .ok out →
    out.length = dl.length ∧
      ∀ p ∈ dl, ∃ s, stream_id_to_nl_id meta p.1 = .ok s ∧ (s, p.2) ∈ out := by
  intro dl
  induction dl with
  | nil =>
    intro out h
    injection h with h
    subst h
    exact ⟨rfl, by simp⟩
  | cons p rest ih =>
    obtain ⟨sid, v⟩ := p
    intro out h
    unfold rename_keys_core at h
    split at h
    · exact Except.noConfusion h
    next s hs =>
      split at h
      · exact Except.noConfusion h
      next tl htl =>
        injection h with h
        subst h
        rcases ih htl with ⟨hlen, hmem⟩
        refine ⟨by simp [hlen], ?_⟩
        intro q hq
        rcases List.mem_cons.mp hq with heq | hqr
        · subst heq
          exact ⟨s, hs, by simp⟩
        · rcases hmem q hqr with ⟨s2, hs2, hmem2⟩
          exact ⟨s2, hs2, by simp [hmem2]⟩

theorem rename_keys_core_total {α : Type} {meta : List (String × Nat)} :
    ∀ {dl : List (Nat × α)}, (∀ p ∈ dl, ∃ q ∈ meta, q.2 = p.1) →
    ∃ out, rename_keys_core meta dl = .ok out := by
  intro dl
  induction dl with
  | nil => intro _; exact ⟨[], rfl⟩
  | cons p rest ih =>
    obtain ⟨sid, v⟩ := p
    intro h
    rcases stream_id_to_nl_id_ok (h (sid, v) (by simp)) with ⟨s, hs⟩
    rcases ih (fun x hx => h x (by simp [hx])) with ⟨out, hout⟩
    refine ⟨(s, v) :: out, ?_⟩
    unfold rename_keys_core
    rw [hs, hout]

theorem py_dict_insert_append {α : Type} {acc : List (String × α)}
    {kv : String × α} (h : kv.1 ∉ acc.map Prod.fst) :
    py_dict_insert acc kv = acc ++ [kv] := by
  unfold py_dict_insert
  rw [if_neg]
  intro hany
  rcases List.any_eq_true.mp hany with ⟨p, hp, hpk⟩
  have hk : p.1 = kv.1 := of_decide_eq_true hpk
  exact h (hk ▸ List.mem_map_of_mem Prod.fst hp)

theorem py_dict_of_list_eq_aux {α : Type} :
    ∀ (l acc : List (String × α)), ((acc ++ l).map Prod.fst).Nodup →
    l.foldl py_dict_insert acc = acc ++ l := by
  intro l
  induction l with
  | nil => intro acc _; simp
  | cons kv rest ih =>
    intro acc h
    have hnotin : kv.1 ∉ acc.map Prod.fst := by
      rw [List.map_append] at h
      rcases (List.nodup_append.mp h) with ⟨_, _, hdisj⟩
      intro hmem
      exact hdisj hmem (by simp)
    rw [List.foldl_cons, py_dict_insert_append hnotin]
    have hre : ((acc ++ [kv]) ++ rest).map Prod.fst
        = (acc ++ kv :: rest).map Prod.fst := by simp
    rw [ih (acc ++ [kv]) (by rw [hre]; exact h)]
    simp

theorem py_dict_of_list_eq {α : Type} {l : List (String × α)}
    (h : (l.map Prod.fst).Nodup) : py_dict_of_list l = l := by
  have := py_dict_of_list_eq_aux l [] (by simpa using h)
  simpa [py_dict_of_list] using this

/-! ### Normalization lemmas -/

/-- A substitution table is closed when no rule output is itself a key:
then a second substitution pass leaves a first-pass result unchanged. -/
theorem substitute_idem {α : Type} [DecidableEq α] {tbl : List (α × α)}
    (hcl : ∀ p ∈ tbl, py_lookup tbl p.2 = none) (v : α) :
    substitute tbl (substitute tbl v) = substitute tbl v := by
  rcases hf : py_lookup tbl v with _ | w
  · have hv : substitute tbl v = v := by unfold substitute; rw [hf]
    rw [hv]
    exact hv
  · have hv : substitute tbl v = w := by unfold substitute; rw [hf]
    rw [hv]
    obtain ⟨p, hp, _, hpw⟩ := py_lookup_spec hf
    have hw : py_lookup tbl w = none := by rw [← hpw]; exact hcl p hp
    unfold substitute
    rw [hw]

theorem ascii_pairs_closed :
    ∀ p ∈ ascii_lower_pairs, py_lookup ascii_lower_pairs p.2 = none := by decide

theorem chan_label_closed :
    ∀ p ∈ channel_metadata_mapper_label,
      py_lookup channel_metadata_mapper_label p.2 = none := by decide

theorem chan_type_closed :
    ∀ p ∈ channel_metadata_mapper_type,
      py_lookup channel_metadata_mapper_type p.2 = none := by decide

theorem char_lower_idem (c : Char) : char_lower (char_lower c) = char_lower c :=
  substitute_idem ascii_pairs_closed c

theorem str_lower_idem (s : String) : str_lower (str_lower s) = str_lower s := by
  unfold str_lower
  apply str_ext
  show (s.data.map char_lower).map char_lower = s.data.map char_lower
  rw [List.map_map]
  exact List.map_congr_left (fun a _ => char_lower_idem a)

/-- Lowercasing never produces the capital E, so the lowercased type can
never match the single key EEG of the metadata rewrite table. -/
theorem char_lower_ne_E (c : Char) : char_lower c ≠ 'E' := by
  intro hc
  unfold char_lower substitute at hc
  rcases hf : py_lookup ascii_lower_pairs c with _ | w
  · rw [hf] at hc
    have hc2 : c = 'E' := hc
    rw [hc2] at hf
    exact absurd hf (by decide)
  · rw [hf] at hc
    have hc2 : w = 'E' := hc
    obtain ⟨p, hp, _, hpw⟩ := py_lookup_spec hf
    have hne : ∀ q ∈ ascii_lower_pairs, q.2 ≠ 'E' := by decide
    exact hne p hp (hpw.trans hc2)

theorem str_lower_ne_EEG (s : String) : str_lower s ≠ "EEG" := by
  intro h
  have hmem : 'E' ∈ (str_lower s).data := by rw [h]; decide
  have hmem2 : 'E' ∈ s.data.map char_lower := hmem
  rcases List.mem_map.mp hmem2 with ⟨c, _, hce⟩
  exact char_lower_ne_E c hce

/-- On an already-lowercased type the metadata rewrite table misses. -/
theorem metadata_rewrite_miss (t : String) :
    substitute metadata_mapper_type (str_lower t) = str_lower t := by
  unfold substitute
  rcases hf : py_lookup metadata_mapper_type (str_lower t) with _ | w
  · rfl
  · obtain ⟨p, hp, hpk, _⟩ := py_lookup_spec hf
    have hpe : p = ("EEG", "eeg") := by simpa [metadata_mapper_type] using hp
    rw [hpe] at hpk
    exact absurd hpk.symm (str_lower_ne_EEG t)

theorem normalize_metadata_row_idem (r : StreamRow) :
    normalize_metadata_row (normalize_metadata_row r) = normalize_metadata_row r := by
  unfold normalize_metadata_row
  dsimp only
  rw [metadata_rewrite_miss, metadata_rewrite_miss, str_lower_idem]

theorem normalize_channel_row_idem (c : ChannelRow) :
    normalize_channel_row (normalize_channel_row c) = normalize_channel_row c := by
  unfold normalize_channel_row
  dsimp only
  rw [substitute_idem chan_label_closed, substitute_idem chan_type_closed]

/-- Normalization of a metadata row depends on the type field only
through its lowercasing; all other fields are copied verbatim. -/
theorem normalize_metadata_row_congr {a b : StreamRow}
    (h1 : a.raw_id = b.raw_id) (h2 : str_lower a.type = str_lower b.type)
    (h3 : a.name = b.name) (h4 : a.hostname = b.hostname)
    (h5 : a.source_id = b.source_id) :
    normalize_metadata_row a = normalize_metadata_row b := by
  unfold normalize_metadata_row
  rw [h1, h2, h3, h4, h5]

/-! ### Claim theorems -/

/-- C1, corrected.  For an eeg-typed row whose hostname is absent from
the DeviceMap, classification does not fall back to str(raw_id): the
direct dict indexing raises a KeyError, which aborts classification.
For every row whose type does not lowercase to eeg, classification never
fails (all unmapped cases degrade to the default str(raw_id) rule). -/
theorem claim1_eeg_keyerror (cnt : String → Nat) (row : StreamRow) :
    (str_lower row.type = "eeg" →
      py_lookup hostname_device_mapper row.hostname = none →
      make_nl_id cnt row = .error (.keyError row.hostname))
    ∧ (str_lower row.type ≠ "eeg" →
      ∃ pr, make_nl_id cnt row = .ok pr) := by
  constructor
  · intro h1 h2
    unfold make_nl_id make_base_id
    rw [if_pos h1, h2]
  · intro h1
    unfold make_nl_id make_base_id
    rw [if_neg h1]
    exact ⟨_, rfl⟩

/-- C1, counterexample to the claim as stated: an eeg row with unmapped
hostname makes classification raise (a KeyError), instead of raising
nothing and assigning str(raw_id) = "3". -/
theorem claim1_counterexample :
    create_nl_ids [⟨3, "eeg", "nm", "unknown-host", "src"⟩]
      = .error (.keyError "unknown-host")
    ∧ create_nl_ids [⟨3, "eeg", "nm", "unknown-host", "src"⟩] ≠ .ok ["3"] := by
  exact ⟨by decide, by decide⟩

/-- C1 witness: the amended theorem evaluated at concrete rows. -/
theorem claim1_eeg_keyerror_witness :
    make_nl_id (fun _ => 0) ⟨3, "eeg", "nm", "unknown-host", "src"⟩
      = .error (.keyError "unknown-host")
    ∧ ∃ pr, make_nl_id (fun _ => 0) ⟨5, "marker", "audio", "h", "s"⟩ = .ok pr :=
  ⟨(claim1_eeg_keyerror (fun _ => 0) ⟨3, "eeg", "nm", "unknown-host", "src"⟩).1
      (by decide) (by decide),
   (claim1_eeg_keyerror (fun _ => 0) ⟨5, "marker", "audio", "h", "s"⟩).2
      (by decide)⟩

/-- C2, confirmed.  Whenever classification succeeds on a metadata table
of N rows, it assigns exactly N pairwise-distinct CanonicalIds, for any
combination of types, names, hostnames and source_ids. -/
theorem claim2_unique (rows : List StreamRow) (ids : List String)
    (h : create_nl_ids rows = .ok ids) : ids.length = rows.length ∧ ids.Nodup :=
  create_nl_ids_nodup h

/-- C2 witness: a colliding table. -/
theorem claim2_unique_witness :
    (["pl-123-gaze", "pl-123-gaze-2"] : List String).length
      = ([⟨5, "gaze", "pupil_cam", "h1", "123"⟩,
          ⟨9, "gaze", "Pupil x", "h2", "123"⟩] : List StreamRow).length
    ∧ (["pl-123-gaze", "pl-123-gaze-2"] : List String).Nodup :=
  claim2_unique _ _ (by decide)

/-- C3, confirmed.  In a table processed in ascending raw-id order, the
k-th stream whose rule match reduces to base id b receives exactly b for
k = 1 and b-k for k greater than 1, k being the number of occurrences of
base b among the rows processed so far. -/
theorem claim3_collision_order (rows : List StreamRow) (ids : List String)
    (hord : rows.Pairwise (fun a b => a.raw_id < b.raw_id))
    (h : create_nl_ids rows = .ok ids)
    (i : Nat) (hi : i < rows.length) (hi2 : i < ids.length) (b : String)
    (hb : make_base_id (rows.get ⟨i, hi⟩) = .ok b) :
    ids.get ⟨i, hi2⟩ =
      (if (rows.take (i + 1)).countP (fun r => decide (make_base_id r = .ok b)) = 1
       then b
       else b ++ "-" ++ nat_to_str ((rows.take (i + 1)).countP
              (fun r => decide (make_base_id r = .ok b)))) := by
  have h0 : create_nl_ids_aux (fun _ => 0) rows = .ok ids := h
  have := create_nl_ids_aux_get h0 i hi hi2 b hb
  simpa using this

/-- C3 witness: spec scenario with raw ids 5 and 9 both reducing to base
pl-123-gaze. -/
theorem claim3_collision_order_witness :
    (["pl-123-gaze", "pl-123-gaze-2"] : List String).get ⟨1, by decide⟩ =
      (if (([⟨5, "gaze", "pupil_cam", "h1", "123"⟩,
            ⟨9, "gaze", "Pupil x", "h2", "123"⟩] : List StreamRow).take 2).countP
            (fun r => decide (make_base_id r = .ok "pl-123-gaze")) = 1
       then "pl-123-gaze"
       else "pl-123-gaze" ++ "-" ++ nat_to_str
            ((([⟨5, "gaze", "pupil_cam", "h1", "123"⟩,
              ⟨9, "gaze", "Pupil x", "h2", "123"⟩] : List StreamRow).take 2).countP
              (fun r => decide (make_base_id r = .ok "pl-123-gaze")))) :=
  claim3_collision_order
    [⟨5, "gaze", "pupil_cam", "h1", "123"⟩, ⟨9, "gaze", "Pupil x", "h2", "123"⟩]
    ["pl-123-gaze", "pl-123-gaze-2"]
    (by decide) (by decide) 1 (by decide) (by decide) "pl-123-gaze" (by decide)

/-- C4, confirmed.  Every collection remapped by _map_stream_ids comes
out sorted ascending by CanonicalId: the sequence of ids, the keyed map
and the indexed table alike. -/
theorem claim4_sorted (α : Type) (meta : List (String × Nat)) (l : List Nat)
    (dl tl2 : List (Nat × α)) (out : List String)
    (dout tout : List (String × α)) :
    (map_stream_ids_list meta l = .ok out → out.Sorted str_le)
    ∧ (map_stream_ids_dict meta dl = .ok dout → dout.Sorted key_le)
    ∧ (map_stream_ids_df meta tl2 = .ok tout → tout.Sorted key_le) := by
  refine ⟨?_, ?_, ?_⟩
  · intro h
    unfold map_stream_ids_list at h
    split at h
    · exact Except.noConfusion h
    · injection h with h
      rw [← h]
      exact List.sorted_insertionSort _ _
  · intro h
    unfold map_stream_ids_dict at h
    split at h
    · exact Except.noConfusion h
    · injection h with h
      rw [← h]
      exact List.sorted_insertionSort _ _
  · intro h
    unfold map_stream_ids_df at h
    split at h
    · exact Except.noConfusion h
    · injection h with h
      rw [← h]
      exact List.sorted_insertionSort _ _

/-- C4 witness: concrete remaps of all three collection shapes. -/
theorem claim4_sorted_witness :
    (["a", "b"] : List String).Sorted str_le
    ∧ ([("a", 5), ("b", 0)] : List (String × Nat)).Sorted key_le
    ∧ ([("a", 5), ("b", 0)] : List (String × Nat)).Sorted key_le :=
  ⟨(claim4_sorted Nat [("a", 1), ("b", 2)] [2, 1] [(2, 0), (1, 5)] [(2, 0), (1, 5)]
      ["a", "b"] [("a", 5), ("b", 0)] [("a", 5), ("b", 0)]).1 (by decide),
   (claim4_sorted Nat [("a", 1), ("b", 2)] [2, 1] [(2, 0), (1, 5)] [(2, 0), (1, 5)]
      ["a", "b"] [("a", 5), ("b", 0)] [("a", 5), ("b", 0)]).2.1 (by decide),
   (claim4_sorted Nat [("a", 1), ("b", 2)] [2, 1] [(2, 0), (1, 5)] [(2, 0), (1, 5)]
      ["a", "b"] [("a", 5), ("b", 0)] [("a", 5), ("b", 0)]).2.2 (by decide)⟩

/-- C5, confirmed.  When the external loader reports one of the two
recoverable failures, load catches it, raises nothing, performs no
remapping, and returns the handle with its prior state unchanged. -/
theorem claim5_recoverable_noop (α : Type) (st : SessionState α) :
    load st .noLoadableStreams = .ok st ∧ load st .alreadyLoaded = .ok st :=
  ⟨rfl, rfl⟩

/-- C6, confirmed.  When every raw id of a collection has an entry in
the resolved table, remapping succeeds and preserves cardinality
exactly; for the keyed-map shape, when additionally the renamed keys are
pairwise distinct, the dict rebuild drops and merges nothing and every
payload survives unchanged under its renamed key; the indexed-table
shape preserves entries unconditionally. -/
theorem claim6_cardinality (α : Type) (meta : List (String × Nat)) (l : List Nat)
    (dl : List (Nat × α)) (l2 : List (String × α)) :
    ((∀ sid ∈ l, ∃ q ∈ meta, q.2 = sid) →
      ∃ out, map_stream_ids_list meta l = .ok out ∧ out.length = l.length)
    ∧ (rename_keys_core meta dl = .ok l2 → (l2.map Prod.fst).Nodup →
      map_stream_ids_dict meta dl = .ok (List.insertionSort key_le l2)
        ∧ (List.insertionSort key_le l2).length = dl.length
        ∧ ∀ p ∈ dl, ∃ s, stream_id_to_nl_id meta p.1 = .ok s
            ∧ (s, p.2) ∈ List.insertionSort key_le l2)
    ∧ (rename_keys_core meta dl = .ok l2 →
      map_stream_ids_df meta dl = .ok (List.insertionSort key_le l2)
        ∧ (List.insertionSort key_le l2).length = dl.length
        ∧ ∀ p ∈ dl, ∃ s, stream_id_to_nl_id meta p.1 = .ok s
            ∧ (s, p.2) ∈ List.insertionSort key_le l2) := by
  refine ⟨?_, ?_, ?_⟩
  · intro h
    rcases map_ids_list_core_ok h with ⟨out0, hc, hlen⟩
    refine ⟨List.insertionSort str_le out0, ?_, ?_⟩
    · unfold map_stream_ids_list
      rw [hc]
    · rw [List.length_insertionSort]
      exact hlen
  · intro h hnd
    rcases rename_keys_core_length_mem h with ⟨hlen, hmem⟩
    refine ⟨?_, ?_, ?_⟩
    · unfold map_stream_ids_dict
      rw [h]
      show Except.ok (List.insertionSort key_le (py_dict_of_list l2))
        = Except.ok (List.insertionSort key_le l2)
      rw [py_dict_of_list_eq hnd]
    · rw [List.length_insertionSort]
      exact hlen
    · intro p hp
      rcases hmem p hp with ⟨s, hs, hmem2⟩
      exact ⟨s, hs, (List.perm_insertionSort key_le l2).mem_iff.mpr hmem2⟩
  · intro h
    rcases rename_keys_core_length_mem h with ⟨hlen, hmem⟩
    refine ⟨?_, ?_, ?_⟩
    · unfold map_stream_ids_df
      rw [h]
    · rw [List.length_insertionSort]
      exact hlen
    · intro p hp
      rcases hmem p hp with ⟨s, hs, hmem2⟩
      exact ⟨s, hs, (List.perm_insertionSort key_le l2).mem_iff.mpr hmem2⟩

/-- C6 witness: a concrete remap of each collection shape. -/
theorem claim6_cardinality_witness :
    (∃ out, map_stream_ids_list [("a", 1), ("b", 2)] [2, 1] = .ok out
      ∧ out.length = ([2, 1] : List Nat).length)
    ∧ (map_stream_ids_dict [("a", 1), ("b", 2)] [(2, 0), (1, 5)]
        = .ok (List.insertionSort key_le [("b", 0), ("a", 5)])
      ∧ (List.insertionSort key_le [("b", 0), ("a", 5)]).length
        = ([(2, 0), (1, 5)] : List (Nat × Nat)).length
      ∧ ∀ p ∈ ([(2, 0), (1, 5)] : List (Nat × Nat)),
          ∃ s, stream_id_to_nl_id [("a", 1), ("b", 2)] p.1 = .ok s
            ∧ (s, p.2) ∈ List.insertionSort key_le [("b", 0), ("a", 5)])
    ∧ (map_stream_ids_df [("a", 1), ("b", 2)] [(2, 0), (1, 5)]
        = .ok (List.insertionSort key_le [("b", 0), ("a", 5)])
      ∧ (List.insertionSort key_le [("b", 0), ("a", 5)]).length
        = ([(2, 0), (1, 5)] : List (Nat × Nat)).length
      ∧ ∀ p ∈ ([(2, 0), (1, 5)] : List (Nat × Nat)),
          ∃ s, stream_id_to_nl_id [("a", 1), ("b", 2)] p.1 = .ok s
            ∧ (s, p.2) ∈ List.insertionSort key_le [("b", 0), ("a", 5)]) :=
  ⟨(claim6_cardinality Nat [("a", 1), ("b", 2)] [2, 1] [(2, 0), (1, 5)]
      [("b", 0), ("a", 5)]).1 (by decide),
   (claim6_cardinality Nat [("a", 1), ("b", 2)] [2, 1] [(2, 0), (1, 5)]
      [("b", 0), ("a", 5)]).2.1 (by decide) (by decide),
   (claim6_cardinality Nat [("a", 1), ("b", 2)] [2, 1] [(2, 0), (1, 5)]
      [("b", 0), ("a", 5)]).2.2 (by decide)⟩

/-- C7, confirmed.  When some raw id present in a remapped collection
has no row in the resolved metadata table, the mapper raises a fatal
error, whatever the collection shape: the id-sequence mapper, the
keyed-map mapper and the indexed-table mapper all fail; and a miss in
any of the six collections load remaps makes load return exactly the
error one of its remap calls raised — propagated unmodified, caught
nowhere, degraded to no default. -/
theorem claim7_lookup_miss_fatal (α : Type) (st : SessionState α)
    (d : LoadedData α) (meta : List (String × Nat)) (sid : Nat)
    (dl : List (Nat × α))
    (hmeta : parse_metadata_table d.metadata_rows = .ok meta)
    (hmiss : ∀ q ∈ meta, q.2 ≠ sid) :
    (sid ∈ dl.map Prod.fst →
      (∃ e, map_stream_ids_dict meta dl = .error e)
      ∧ (∃ e, map_stream_ids_df meta dl = .error e))
    ∧ (sid ∈ d.loaded_stream_ids →
      ∃ e, map_stream_ids_list meta d.loaded_stream_ids = .error e)
    ∧ ((sid ∈ d.loaded_stream_ids
        ∨ sid ∈ d.channel_metadata.map Prod.fst
        ∨ sid ∈ d.footer.map Prod.fst
        ∨ sid ∈ d.clock_offsets.map Prod.fst
        ∨ sid ∈ d.time_series.map Prod.fst
        ∨ sid ∈ d.time_stamps.map Prod.fst) →
      ∃ e, (map_stream_ids_list meta d.loaded_stream_ids = .error e
          ∨ map_stream_ids_dict meta d.channel_metadata = .error e
          ∨ map_stream_ids_dict meta d.footer = .error e
          ∨ map_stream_ids_dict meta d.clock_offsets = .error e
          ∨ map_stream_ids_dict meta d.time_series = .error e
          ∨ map_stream_ids_dict meta d.time_stamps = .error e)
        ∧ load st (.ok d) = .error e) := by
  refine ⟨?_, ?_, ?_⟩
  · intro hmem
    exact ⟨map_stream_ids_dict_err hmem hmiss, map_stream_ids_df_err hmem hmiss⟩
  · intro hmem
    exact map_stream_ids_list_err hmem hmiss
  · intro hsome
    rcases h1 : map_stream_ids_list meta d.loaded_stream_ids with e1 | ids
    · exact ⟨e1, Or.inl rfl, by simp only [load, hmeta, h1]⟩
    rcases h2 : map_stream_ids_dict meta d.channel_metadata with e2 | chan
    · exact ⟨e2, Or.inr (Or.inl rfl), by simp only [load, hmeta, h1, h2]⟩
    rcases h3 : map_stream_ids_dict meta d.footer with e3 | foot
    · exact ⟨e3, Or.inr (Or.inr (Or.inl rfl)),
        by simp only [load, hmeta, h1, h2, h3]⟩
    rcases h4 : map_stream_ids_dict meta d.clock_offsets with e4 | clock
    · exact ⟨e4, Or.inr (Or.inr (Or.inr (Or.inl rfl))),
        by simp only [load, hmeta, h1, h2, h3, h4]⟩
    rcases h5 : map_stream_ids_dict meta d.time_series with e5 | ts
    · exact ⟨e5, Or.inr (Or.inr (Or.inr (Or.inr (Or.inl rfl)))),
        by simp only [load, hmeta, h1, h2, h3, h4, h5]⟩
    rcases h6 : map_stream_ids_dict meta d.time_stamps with e6 | tst
    · exact ⟨e6, Or.inr (Or.inr (Or.inr (Or.inr (Or.inr rfl)))),
        by simp only [load, hmeta, h1, h2, h3, h4, h5, h6]⟩
    exfalso
    rcases hsome with hm | hm | hm | hm | hm | hm
    · rcases map_stream_ids_list_err hm hmiss with ⟨e, he⟩
      rw [h1] at he
      exact Except.noConfusion he
    · rcases map_stream_ids_dict_err hm hmiss with ⟨e, he⟩
      rw [h2] at he
      exact Except.noConfusion he
    · rcases map_stream_ids_dict_err hm hmiss with ⟨e, he⟩
      rw [h3] at he
      exact Except.noConfusion he
    · rcases map_stream_ids_dict_err hm hmiss with ⟨e, he⟩
      rw [h4] at he
      exact Except.noConfusion he
    · rcases map_stream_ids_dict_err hm hmiss with ⟨e, he⟩
      rw [h5] at he
      exact Except.noConfusion he
    · rcases map_stream_ids_dict_err hm hmiss with ⟨e, he⟩
      rw [h6] at he
      exact Except.noConfusion he

/-- C7 witness: the resolved table only contains stream 5; stream 7
appears in a free-standing keyed map (first conjunct) and in the
session's timestamp map (third conjunct), so both map-shaped remaps
fail and the load call returns one of its remap errors. -/
theorem claim7_lookup_miss_fatal_witness :
    ((7 : Nat) ∈ ([(7, 9)] : List (Nat × Nat)).map Prod.fst →
      (∃ e, map_stream_ids_dict [("5", 5)] [(7, 9)] = .error e)
      ∧ (∃ e, map_stream_ids_df [("5", 5)] [(7, 9)] = .error e))
    ∧ ((7 : Nat) ∈ (⟨[⟨5, "t", "n", "h", "s"⟩], [5], [(5, 0)], [(5, 1)],
          [(5, 2)], [(5, 3)], [(7, 4)]⟩ : LoadedData Nat).loaded_stream_ids →
      ∃ e, map_stream_ids_list [("5", 5)]
        ((⟨[⟨5, "t", "n", "h", "s"⟩], [5], [(5, 0)], [(5, 1)],
          [(5, 2)], [(5, 3)], [(7, 4)]⟩ : LoadedData Nat).loaded_stream_ids)
        = .error e)
    ∧ (((7 : Nat) ∈ (⟨[⟨5, "t", "n", "h", "s"⟩], [5], [(5, 0)], [(5, 1)],
          [(5, 2)], [(5, 3)], [(7, 4)]⟩ : LoadedData Nat).loaded_stream_ids
        ∨ (7 : Nat) ∈ (⟨[⟨5, "t", "n", "h", "s"⟩], [5], [(5, 0)], [(5, 1)],
          [(5, 2)], [(5, 3)], [(7, 4)]⟩ : LoadedData Nat).channel_metadata.map Prod.fst
        ∨ (7 : Nat) ∈ (⟨[⟨5, "t", "n", "h", "s"⟩], [5], [(5, 0)], [(5, 1)],
          [(5, 2)], [(5, 3)], [(7, 4)]⟩ : LoadedData Nat).footer.map Prod.fst
        ∨ (7 : Nat) ∈ (⟨[⟨5, "t", "n", "h", "s"⟩], [5], [(5, 0)], [(5, 1)],
          [(5, 2)], [(5, 3)], [(7, 4)]⟩ : LoadedData Nat).clock_offsets.map Prod.fst
        ∨ (7 : Nat) ∈ (⟨[⟨5, "t", "n", "h", "s"⟩], [5], [(5, 0)], [(5, 1)],
          [(5, 2)], [(5, 3)], [(7, 4)]⟩ : LoadedData Nat).time_series.map Prod.fst
        ∨ (7 : Nat) ∈ (⟨[⟨5, "t", "n", "h", "s"⟩], [5], [(5, 0)], [(5, 1)],
          [(5, 2)], [(5, 3)], [(7, 4)]⟩ : LoadedData Nat).time_stamps.map Prod.fst) →
      ∃ e, (map_stream_ids_list [("5", 5)]
            ((⟨[⟨5, "t", "n", "h", "s"⟩], [5], [(5, 0)], [(5, 1)],
              [(5, 2)], [(5, 3)], [(7, 4)]⟩ : LoadedData Nat).loaded_stream_ids)
            = .error e
          ∨ map_stream_ids_dict [("5", 5)]
            ((⟨[⟨5, "t", "n", "h", "s"⟩], [5], [(5, 0)], [(5, 1)],
              [(5, 2)], [(5, 3)], [(7, 4)]⟩ : LoadedData Nat).channel_metadata)
            = .error e
          ∨ map_stream_ids_dict [("5", 5)]
            ((⟨[⟨5, "t", "n", "h", "s"⟩], [5], [(5, 0)], [(5, 1)],
              [(5, 2)], [(5, 3)], [(7, 4)]⟩ : LoadedData Nat).footer)
            = .error e
          ∨ map_stream_ids_dict [("5", 5)]
            ((⟨[⟨5, "t", "n", "h", "s"⟩], [5], [(5, 0)], [(5, 1)],
              [(5, 2)], [(5, 3)], [(7, 4)]⟩ : LoadedData Nat).clock_offsets)
            = .error e
          ∨ map_stream_ids_dict [("5", 5)]
            ((⟨[⟨5, "t", "n", "h", "s"⟩], [5], [(5, 0)], [(5, 1)],
              [(5, 2)], [(5, 3)], [(7, 4)]⟩ : LoadedData Nat).time_series)
            = .error e
          ∨ map_stream_ids_dict [("5", 5)]
            ((⟨[⟨5, "t", "n", "h", "s"⟩], [5], [(5, 0)], [(5, 1)],
              [(5, 2)], [(5, 3)], [(7, 4)]⟩ : LoadedData Nat).time_stamps)
            = .error e)
        ∧ load (⟨[], [], [], [], [], [], []⟩ : SessionState Nat)
            (.ok (⟨[⟨5, "t", "n", "h", "s"⟩], [5], [(5, 0)], [(5, 1)],
              [(5, 2)], [(5, 3)], [(7, 4)]⟩ : LoadedData Nat)) = .error e) :=
  claim7_lookup_miss_fatal Nat ⟨[], [], [], [], [], [], []⟩
    ⟨[⟨5, "t", "n", "h", "s"⟩], [5], [(5, 0)], [(5, 1)], [(5, 2)], [(5, 3)],
      [(7, 4)]⟩ [("5", 5)] 7 [(7, 9)] (by decide) (by decide)

/-- C8, confirmed.  Normalization is idempotent on metadata rows and on
channel-metadata rows: lowercasing composed with the exact-match rewrite
tables is a no-op on already-normalized values, because no rewrite
output is itself a rewrite key and the lowercased type never matches the
single uppercase key of the metadata table. -/
theorem claim8_normalization_idempotent (r : StreamRow) (c : ChannelRow) :
    normalize_metadata_row (normalize_metadata_row r) = normalize_metadata_row r
    ∧ normalize_channel_row (normalize_channel_row c) = normalize_channel_row c :=
  ⟨normalize_metadata_row_idem r, normalize_channel_row_idem c⟩

/-- C9, counterexample to the claim as stated: resolve_streams does not
normalize before classifying.  A stream of type Control is classified to
test-ctrl through the load path (which lowercases first), but through
resolve_streams the case-sensitive control rule does not fire and the
stream falls through to the default raw-id rule. -/
theorem claim9_counterexample :
    resolve_streams_nl_ids [⟨1, "Control", "strm", "h", "s"⟩] = .ok ["1"]
    ∧ parse_metadata_nl_ids [⟨1, "Control", "strm", "h", "s"⟩] = .ok ["test-ctrl"]
    ∧ resolve_streams_nl_ids [⟨1, "Control", "strm", "h", "s"⟩]
        ≠ parse_metadata_nl_ids [⟨1, "Control", "strm", "h", "s"⟩] :=
  ⟨by decide, by decide, by decide⟩

/-- C9, corrected.  Only the load entry point (via _parse_metadata)
normalizes before classifying: its assignment is invariant under any
re-casing of the type field, so rules keyed on lowercase type values
fire regardless of the input casing there.  resolve_streams classifies
the unnormalized table (see the counterexample). -/
theorem claim9_load_path_case_insensitive (rows rows2 : List StreamRow)
    (h : List.Forall₂ (fun a b => a.raw_id = b.raw_id
        ∧ str_lower a.type = str_lower b.type ∧ a.name = b.name
        ∧ a.hostname = b.hostname ∧ a.source_id = b.source_id) rows rows2) :
    parse_metadata_nl_ids rows = parse_metadata_nl_ids rows2 := by
  unfold parse_metadata_nl_ids
  have hmap : rows.map normalize_metadata_row = rows2.map normalize_metadata_row := by
    induction h with
    | nil => rfl
    | cons hrel _ ih =>
      rcases hrel with ⟨h1, h2, h3, h4, h5⟩
      rw [List.map_cons, List.map_cons,
        normalize_metadata_row_congr h1 h2 h3 h4 h5, ih]
  rw [hmap]

/-- C9 witness: recasing Control to CONTROL leaves the load-path
assignment unchanged. -/
theorem claim9_load_path_case_insensitive_witness :
    parse_metadata_nl_ids [⟨1, "Control", "x", "h", "s"⟩]
      = parse_metadata_nl_ids [⟨1, "CONTROL", "x", "h", "s"⟩] :=
  claim9_load_path_case_insensitive _ _
    (List.Forall₂.cons ⟨rfl, by decide, rfl, rfl, rfl⟩ List.Forall₂.nil)

/-- C10, confirmed.  Classification is deterministic and stateless
across calls: in any sequence of resolution calls, equal metadata tables
receive identical assignments wherever they occur in the sequence, and
each call is exactly the row fold seeded with a fresh all-zero collision
counter, so no count carries over between calls. -/
theorem claim10_stateless_deterministic (tables : List (List StreamRow))
    (i j : Nat) (hi : i < tables.length) (hj : j < tables.length)
    (hi2 : i < (run_resolutions tables).length)
    (hj2 : j < (run_resolutions tables).length)
    (heq : tables.get ⟨i, hi⟩ = tables.get ⟨j, hj⟩) :
    (run_resolutions tables).get ⟨i, hi2⟩ = (run_resolutions tables).get ⟨j, hj2⟩
    ∧ (run_resolutions tables).get ⟨i, hi2⟩
        = create_nl_ids_aux (fun _ => 0) (tables.get ⟨i, hi⟩) := by
  constructor
  · unfold run_resolutions
    simp only [List.get_eq_getElem, List.getElem_map]
    simp only [List.get_eq_getElem] at heq
    rw [heq]
  · unfold run_resolutions
    simp only [List.get_eq_getElem, List.getElem_map]
    rfl

/-- C10 witness: two calls on the same table, separated by a different
call, yield the same assignment. -/
theorem claim10_stateless_deterministic_witness :
    (run_resolutions [[⟨1, "t", "n", "h", "s"⟩], [],
        [⟨1, "t", "n", "h", "s"⟩]]).get ⟨0, by decide⟩
      = (run_resolutions [[⟨1, "t", "n", "h", "s"⟩], [],
        [⟨1, "t", "n", "h", "s"⟩]]).get ⟨2, by decide⟩
    ∧ (run_resolutions [[⟨1, "t", "n", "h", "s"⟩], [],
        [⟨1, "t", "n", "h", "s"⟩]]).get ⟨0, by decide⟩
      = create_nl_ids_aux (fun _ => 0)
        (([[⟨1, "t", "n", "h", "s"⟩], [], [⟨1, "t", "n", "h", "s"⟩]] :
          List (List StreamRow)).get ⟨0, by decide⟩) :=
  claim10_stateless_deterministic
    [[⟨1, "t", "n", "h", "s"⟩], [], [⟨1, "t", "n", "h", "s"⟩]]
    0 2 (by decide) (by decide) (by decide) (by decide) (by decide)

example : create_nl_ids [⟨14, "data2", "_relay_mic", "h", "s"⟩]
    = .ok ["14-relay"] := by decide

example : create_nl_ids [⟨3, "eeg", "nm", "unknown-host", "src"⟩]
    = .error (.keyError "unknown-host") := by decide

example : create_nl_ids [⟨7, "Markers", "m", "h", "s"⟩] = .ok ["7-markers"] := by decide

example : create_nl_ids [⟨2, "eeg", "nm", "DESKTOP-3R7C1PH", "s"⟩]
    = .ok ["eeg-a"] := by decide
